import Mathlib

/-!
Verification of the player-list extraction and status-aggregation logic of
the `mcsmanager-mcp` API client (`src/minecraft-api.ts`).

The TypeScript code is shallowly embedded: network behaviour (the outcome of
each HTTP `fetch`) is an explicit input, JavaScript strings are `List Char` /
`String`, and the one regular expression of the program is modelled by a
deterministic matching function whose equivalence with the backtracking
semantics of the JavaScript engine is argued in the doc comments.
-/

namespace MCSM

/-- `\d` of the JavaScript regex: the ASCII digits `[0-9]`. -/
def isDigitChar (c : Char) : Bool := '0' ≤ c && c ≤ '9'

/-- JavaScript line terminators: the characters that `.` (without the `s`
flag) does NOT match: `\r`, `\n`, U+2028, U+2029. -/
def isLineTerm (c : Char) : Bool :=
  c = '\r' || c = '\n' || c = '\u2028' || c = '\u2029'

/-- The JavaScript `String.prototype.trim` character class
(WhiteSpace plus LineTerminator): tab, LF, VT, FF, CR, space, NBSP, line and
paragraph separators, Ogham space mark, the Unicode en/em-style spaces
U+2000..U+200A, NNBSP, MMSP, ideographic space and ZWNBSP. -/
def isJsWs (c : Char) : Bool :=
  c = '\t' || c = '\n' || c = '\u000b' || c = '\u000c' || c = '\r' ||
  c = ' ' || c = '\u00a0' || c = '\u2028' || c = '\u2029' ||
  c = '\u1680' || ('\u2000' ≤ c && c ≤ '\u200a') ||
  c = '\u202f' || c = '\u205f' || c = '\u3000' || c = '\ufeff'

/-- JavaScript `s.trim()` on a list of characters: drop the maximal
whitespace prefix, then the maximal whitespace suffix. -/
def trimChars (l : List Char) : List Char :=
  ((l.dropWhile isJsWs).reverse.dropWhile isJsWs).reverse

/-- JavaScript `s.split(',')` (single-character separator): split at every
comma; the empty string gives one empty piece, commas at the ends produce
empty pieces. -/
def splitComma : List Char → List (List Char)
  | [] => [[]]
  | c :: cs =>
      if c = ',' then [] :: splitComma cs
      else
        match splitComma cs with
        | [] => [[c]]
        | p :: ps => (c :: p) :: ps

/-- JavaScript `parseInt` restricted to the non-empty all-digit strings that
the regex group `(\d+)` captures: the decimal value. -/
def decNat (l : List Char) : Nat :=
  l.foldl (fun n c => n * 10 + (c.toNat - '0'.toNat)) 0

/-- Matching a fixed literal: consume exactly the characters of `pre` from
the front of `l`, or fail. -/
def dropLiteral : List Char → List Char → Option (List Char)
  | [], l => some l
  | _ :: _, [] => none
  | p :: ps, c :: cs => if c = p then dropLiteral ps cs else none

/-- The three captured groups of the pattern: player count digits, max
capacity digits, and the raw name-list substring. -/
abbrev Groups := List Char × List Char × List Char

/-- One anchored attempt of the regex
`There are (\d+) of a max of (\d+) players online: (.+)\r\n`
(line 144 of `minecraft-api.ts`) at the start of `l`.

The backtracking search of the JavaScript engine is deterministic for this
pattern, so maximal munch is exact:
* `(\d+)` greedy, followed by the literal `" of a max of "`: a shorter-than-
  maximal digit run would put a digit where the literal's leading space must
  match, so only the maximal run can succeed;
* likewise for the second `(\d+)` before `" players online: "`;
* `(.+)` greedy matches line-terminator-free characters, followed by the
  literal `\r\n`: a shorter-than-maximal run would put a non-line-terminator
  character (hence not `\r`) where `\r` must match, so only the maximal run
  can succeed, and it must be non-empty and immediately followed by
  `'\r', '\n'`. -/
def matchAt (l : List Char) : Option Groups :=
  match dropLiteral "There are ".toList l with
  | none => none
  | some l1 =>
      let count := l1.takeWhile isDigitChar
      let l2 := l1.dropWhile isDigitChar
      if count = [] then none
      else
        match dropLiteral " of a max of ".toList l2 with
        | none => none
        | some l3 =>
            let maxCap := l3.takeWhile isDigitChar
            let l4 := l3.dropWhile isDigitChar
            if maxCap = [] then none
            else
              match dropLiteral " players online: ".toList l4 with
              | none => none
              | some l5 =>
                  let names := l5.takeWhile (fun c => !isLineTerm c)
                  let l6 := l5.dropWhile (fun c => !isLineTerm c)
                  if names = [] then none
                  else
                    match l6 with
                    | '\r' :: '\n' :: _ => some (count, maxCap, names)
                    | _ => none

/-- JavaScript `output.match(pattern)` for a non-global regex: the match at
the leftmost starting position at which `matchAt` succeeds, scanning the
positions left to right. -/
def findMatch : List Char → Option Groups
  | [] => matchAt []
  | c :: cs =>
      match matchAt (c :: cs) with
      | some r => some r
      | none => findMatch cs

/-- Lines 143–164 of `getPlayers` in `minecraft-api.ts`: apply the fixed
pattern to the console output; on a match take `parseInt` of group 1 as the
player count and `match[3].trim()` as the name-list string; if the count is
0 return `[]`; otherwise split on commas, trim each piece and keep the
truthy (non-empty) ones.  On no match (the `else` branch that logs a
warning) return `[]`. -/
def parsePlayers (output : String) : List String :=
  match findMatch output.toList with
  | some (count, _maxCap, names) =>
      let playerCount := decNat count
      let playersStr := trimChars names
      if playerCount = 0 then []
      else
        (((splitComma playersStr).map trimChars).filter
          (fun p => p ≠ [])).map String.mk
  | none => []

/-- The shape of a parsed JSON body as far as this client inspects it:
`resp.status` (compared against the literal string `"200"`) and `resp.data`
(a string, or absent).  `none` in a field stands for the field being absent
or not a string: `resp.status !== '200'` holds for any non-string value, and
the only `data` this client ever propagates is a string. -/
structure ApiResponse where
  status : Option String
  data : Option String
deriving DecidableEq

/-- The outcome of one `fetch` call, the external input of `makeRequest`:
the request was aborted (the 30-second timer fired), the fetch or the body
parse rejected with some error message, or a response arrived with an HTTP
status code and a parse result for its JSON body (`Except.ok none` models a
body that parses to `null` or another falsy value). -/
inductive FetchOutcome where
  | aborted : FetchOutcome
  | failed : String → FetchOutcome
  | responded : Nat → Except String (Option ApiResponse) → FetchOutcome

/-- The errors `makeRequest` can throw, one constructor per distinct error
the `catch` block of lines 67–72 lets out: `Error('Request timeout')` for an
`AbortError`, `Error('HTTP error! status: …')` for a non-2xx response, and
any other propagated error by its message. -/
inductive ReqError where
  | timeout : ReqError
  | http : Nat → ReqError
  | network : String → ReqError
deriving DecidableEq

/-- Line 50 of `minecraft-api.ts`: `setTimeout(() => controller.abort(), 30000)`. -/
def requestTimeoutMs : Nat := 30000

/-- `makeRequest` (lines 45–73) as a function of the fetch outcome:
an aborted fetch (`AbortError`) is rethrown as the distinct timeout error;
any other rejection propagates; a response with `!response.ok` (HTTP status
outside 200–299) throws the HTTP error; otherwise the JSON parse result is
returned, a parse failure propagating as its error. -/
def makeRequest (o : FetchOutcome) : Except ReqError (Option ApiResponse) :=
  match o with
  | FetchOutcome.aborted => Except.error ReqError.timeout
  | FetchOutcome.failed msg => Except.error (ReqError.network msg)
  | FetchOutcome.responded status body =>
      if 200 ≤ status ∧ status ≤ 299 then
        match body with
        | Except.ok v => Except.ok v
        | Except.error msg => Except.error (ReqError.network msg)
      else Except.error (ReqError.http status)

/-- `executeServerCommand` (lines 80–97) as a function of the outcome of its
one request: `false` when `makeRequest` throws (the `catch`), when the body
is falsy (`!resp`), or when `resp.status !== '200'`; `true` otherwise. -/
def executeServerCommand (o : FetchOutcome) : Bool :=
  match makeRequest o with
  | Except.error _ => false
  | Except.ok none => false
  | Except.ok (some r) => if r.status = some "200" then true else false

/-- `getOutput` (lines 104–120) as a function of the outcome of its one
request: `""` when `makeRequest` throws, when the body is falsy, or when
`resp.status !== '200'`; otherwise `resp.data || ''` (the `data` string if
present and truthy, else `""` — for a string, falsy means empty, so this is
`data` with default `""`). -/
def getOutput (o : FetchOutcome) : String :=
  match makeRequest o with
  | Except.error _ => ""
  | Except.ok none => ""
  | Except.ok (some r) =>
      if r.status = some "200" then
        match r.data with
        | some d => d
        | none => ""
      else ""

/-- The network environment of one `getPlayers` / `setWeather` run: the
fetch outcome produced for a request to the command endpoint with a given
`command` parameter, and for a request to the output-log endpoint with a
given `size` parameter. -/
structure Env where
  respondCommand : String → FetchOutcome
  respondOutput : Nat → FetchOutcome

/-- `getPlayers` (lines 126–169) instrumented with the number of calls made
to `getOutput`: execute `/list`; on failure return `([], 0)` — the output
fetch never happens; otherwise (after the fixed 1000 ms pause, which has no
observable effect in this model) fetch 500 units of output, and parse it
unless it is empty.  Exactly one fetch happens on the success path. -/
def getPlayersRun (env : Env) : List String × Nat :=
  let success := executeServerCommand (env.respondCommand "/list")
  if success = false then ([], 0)
  else
    let output := getOutput (env.respondOutput 500)
    if output = "" then ([], 1)
    else (parsePlayers output, 1)

/-- The `try` block of `getPlayers`, typed fallibly as the `Promise` is:
every control path returns, since `executeServerCommand` and `getOutput`
absorb their own failures. -/
def getPlayersBody (env : Env) : Except ReqError (List String) :=
  let success := executeServerCommand (env.respondCommand "/list")
  if success = false then Except.ok []
  else
    let output := getOutput (env.respondOutput 500)
    if output = "" then Except.ok []
    else Except.ok (parsePlayers output)

/-- `getPlayers` with its own `catch` (lines 165–168): any error thrown by
the body is absorbed into `[]`. -/
def getPlayersE (env : Env) : Except ReqError (List String) :=
  match getPlayersBody env with
  | Except.ok ps => Except.ok ps
  | Except.error _ => Except.ok []

/-- The `status` field of a `ServerStatus`: `'online' | 'error'`. -/
inductive Status where
  | online : Status
  | error : Status
deriving DecidableEq

/-- The `ServerStatus` record of `minecraft-api.ts` (lines 8–12). -/
structure ServerStatus where
  online_players : Nat
  player_names : List String
  status : Status
deriving DecidableEq

/-- `getServerStatus` (lines 189–205): build the record from `getPlayers`;
if obtaining the player list throws, the `catch` returns the error record
`{0, [], 'error'}`. -/
def getServerStatus (env : Env) : ServerStatus :=
  match getPlayersE env with
  | Except.ok players =>
      { online_players := players.length
        player_names := players
        status := Status.online }
  | Except.error _ =>
      { online_players := 0
        player_names := []
        status := Status.error }

/-- `setWeather` (lines 176–183) instrumented with the list of commands sent
to the remote: an argument outside `['clear', 'rain', 'thunder']` returns
`false` with no remote call; otherwise the result of executing the command
`/weather <weather>`, which is the one command sent. -/
def setWeatherRun (weather : String) (env : Env) : Bool × List String :=
  if (["clear", "rain", "thunder"] : List String).contains weather then
    (executeServerCommand (env.respondCommand ("/weather " ++ weather)),
      ["/weather " ++ weather])
  else (false, [])

/-! ### Lemmas: trimming the whole name-list string before splitting on
commas changes nothing once every piece is trimmed, because the outer trim
only removes whitespace at the very ends of the first and last pieces. -/

/-- Replace the last element of a list. -/
def modifyLast (f : α → α) : List α → List α
  | [] => []
  | [a] => [f a]
  | a :: b :: rest => a :: modifyLast f (b :: rest)

theorem splitComma_ne_nil (l : List Char) : splitComma l ≠ [] := by
  cases l with
  | nil => simp [splitComma]
  | cons c cs =>
      by_cases h : c = ','
      · simp [splitComma, h]
      · simp only [splitComma, if_neg h]
        cases splitComma cs <;> simp

theorem isJsWs_ne_comma {c : Char} (h : isJsWs c = true) : c ≠ ',' := by
  intro hc
  rw [hc] at h
  exact absurd h (by decide)

theorem dropWhile_append_left {p : Char → Bool} (l t : List Char)
    (h : l.dropWhile p ≠ []) :
    (l ++ t).dropWhile p = l.dropWhile p ++ t := by
  induction l with
  | nil => exact absurd rfl h
  | cons c cs ih =>
      by_cases hc : p c
      · simp only [List.dropWhile_cons, hc, if_true, List.cons_append] at h ⊢
        exact ih h
      · simp [List.dropWhile_cons, hc]

theorem trimChars_cons {c : Char} (l : List Char) (h : isJsWs c = true) :
    trimChars (c :: l) = trimChars l := by
  simp [trimChars, List.dropWhile_cons, h]

theorem trimChars_append {c : Char} (l : List Char) (h : isJsWs c = true) :
    trimChars (l ++ [c]) = trimChars l := by
  by_cases hd : l.dropWhile isJsWs = []
  · have hall : ∀ x ∈ l, isJsWs x := List.dropWhile_eq_nil_iff.mp hd
    have hall2 : (l ++ [c]).dropWhile isJsWs = [] := by
      rw [List.dropWhile_eq_nil_iff]
      intro x hx
      rcases List.mem_append.mp hx with hx | hx
      · exact hall x hx
      · simp at hx; rw [hx]; exact h
    simp [trimChars, hd, hall2]
  · rw [trimChars, dropWhile_append_left l [c] hd]
    rw [List.reverse_append]
    simp only [List.reverse_cons, List.reverse_nil, List.nil_append,
      List.singleton_append, List.dropWhile_cons, h, if_true]
    rfl

theorem splitComma_append {c : Char} (l : List Char) (h : c ≠ ',') :
    splitComma (l ++ [c]) = modifyLast (fun p => p ++ [c]) (splitComma l) := by
  induction l with
  | nil => simp [splitComma, h, modifyLast]
  | cons a l' ih =>
      by_cases ha : a = ','
      · simp only [List.cons_append, splitComma, ha, if_true, List.append_eq]
        rw [ih]
        obtain ⟨p, ps, hps⟩ := List.exists_cons_of_ne_nil (splitComma_ne_nil l')
        rw [hps]
        rfl
      · simp only [List.cons_append, splitComma, if_neg ha, List.append_eq]
        obtain ⟨p, ps, hps⟩ := List.exists_cons_of_ne_nil (splitComma_ne_nil l')
        rw [hps] at ih ⊢
        cases ps with
        | nil =>
            simp only [modifyLast] at ih ⊢
            rw [ih]
            rfl
        | cons p' ps' =>
            simp only [modifyLast] at ih ⊢
            rw [ih]

theorem map_trimChars_modifyLast {c : Char} (ps : List (List Char))
    (h : isJsWs c = true) :
    (modifyLast (fun p => p ++ [c]) ps).map trimChars = ps.map trimChars := by
  induction ps with
  | nil => rfl
  | cons a rest ih =>
      cases rest with
      | nil => simp [modifyLast, trimChars_append a h]
      | cons b rest' =>
          simp only [modifyLast, List.map_cons] at ih ⊢
          rw [ih]

theorem mapTrim_cons_ws {a : Char} (l : List Char) (h : isJsWs a = true) :
    (splitComma (a :: l)).map trimChars = (splitComma l).map trimChars := by
  have ha : a ≠ ',' := isJsWs_ne_comma h
  obtain ⟨p, ps, hps⟩ := List.exists_cons_of_ne_nil (splitComma_ne_nil l)
  simp only [splitComma, if_neg ha, hps, List.map_cons]
  rw [trimChars_cons p h]

theorem mapTrim_dropWhile (l : List Char) :
    (splitComma (l.dropWhile isJsWs)).map trimChars
      = (splitComma l).map trimChars := by
  induction l with
  | nil => rfl
  | cons a l' ih =>
      by_cases ha : isJsWs a
      · rw [List.dropWhile_cons, if_pos ha, ih, mapTrim_cons_ws l' ha]
      · rw [List.dropWhile_cons, if_neg ha]

theorem mapTrim_append_ws (u t : List Char) (h : ∀ x ∈ t, isJsWs x = true) :
    (splitComma (u ++ t)).map trimChars = (splitComma u).map trimChars := by
  induction t using List.reverseRecOn with
  | nil => rw [List.append_nil]
  | append_singleton t' c ih =>
      have hc : isJsWs c = true := h c (by simp)
      rw [← List.append_assoc, splitComma_append (u ++ t') (isJsWs_ne_comma hc),
        map_trimChars_modifyLast _ hc]
      exact ih (fun x hx => h x (by simp [hx]))

theorem mapTrim_trimChars (l : List Char) :
    (splitComma (trimChars l)).map trimChars
      = (splitComma l).map trimChars := by
  have hdecomp : l.dropWhile isJsWs
      = trimChars l ++ ((l.dropWhile isJsWs).reverse.takeWhile isJsWs).reverse := by
    conv_lhs => rw [← List.reverse_reverse (l.dropWhile isJsWs)]
    conv_lhs =>
      rw [← List.takeWhile_append_dropWhile isJsWs (l.dropWhile isJsWs).reverse]
    rw [List.reverse_append]
    rfl
  have hws : ∀ x ∈ ((l.dropWhile isJsWs).reverse.takeWhile isJsWs).reverse,
      isJsWs x = true := by
    intro x hx
    exact List.mem_takeWhile_imp (List.mem_reverse.mp hx)
  calc (splitComma (trimChars l)).map trimChars
      = (splitComma (trimChars l
          ++ ((l.dropWhile isJsWs).reverse.takeWhile isJsWs).reverse)).map
            trimChars := (mapTrim_append_ws _ _ hws).symm
    _ = (splitComma (l.dropWhile isJsWs)).map trimChars := by rw [← hdecomp]
    _ = (splitComma l).map trimChars := mapTrim_dropWhile l

/-! ### The claims -/

/-- C1: every result of `getServerStatus()` satisfies
`online_players = length player_names`, and its `status` is either
`online`, or `error` with `online_players = 0` and `player_names = []`.
Since `status` has exactly these two values, this is equivalent to the
claim's pair of implications for the `"online"` and `"error"` states. -/
theorem getServerStatus_invariant (env : Env) :
    (getServerStatus env).online_players
        = (getServerStatus env).player_names.length ∧
    ((getServerStatus env).status = Status.online ∨
      ((getServerStatus env).online_players = 0 ∧
        (getServerStatus env).player_names = [])) := by
  cases h : getPlayersE env with
  | ok ps => simp [getServerStatus, h]
  | error e => simp [getServerStatus, h]

/-- C3: if the `/list` command execution returns `false`, `getPlayers`
returns the empty list with zero calls to the output fetch. -/
theorem getPlayers_no_fetch_on_failure (env : Env)
    (h : executeServerCommand (env.respondCommand "/list") = false) :
    getPlayersRun env = ([], 0) := by
  simp [getPlayersRun, h]

/-- Witness for C3 at an environment whose command request times out. -/
theorem getPlayers_no_fetch_on_failure_witness :
    getPlayersRun
      ⟨fun _ => FetchOutcome.aborted, fun _ => FetchOutcome.aborted⟩
      = ([], 0) :=
  getPlayers_no_fetch_on_failure _ rfl

/-- C2: whenever the pattern matches with a player count greater than 0,
`getPlayers`'s parse of the output is exactly the captured name-list
substring split on commas, each piece trimmed, empty pieces discarded, in
order; and the two concrete examples of the specification. -/
theorem getPlayers_parse_split :
    (∀ (out : String) (count maxCap names : List Char),
        findMatch out.toList = some (count, maxCap, names) →
        0 < decNat count →
        parsePlayers out
          = (((splitComma names).map trimChars).filter
              (fun p => p ≠ [])).map String.mk) ∧
    parsePlayers "There are 3 of a max of 20 players online: A, B ,C\r\n"
      = ["A", "B", "C"] ∧
    parsePlayers "There are 1 of a max of 20 players online: chaofanx\r\n"
      = ["chaofanx"] := by
  refine ⟨?_, by decide, by decide⟩
  intro out count maxCap names h hc
  simp only [parsePlayers, h]
  rw [if_neg (Nat.pos_iff_ne_zero.mp hc), mapTrim_trimChars names]

/-- Witness for C2: a capture with stray whitespace around two names. -/
theorem getPlayers_parse_split_witness :
    parsePlayers "There are 2 of a max of 20 players online:  bob , eve \r\n"
      = ((((splitComma " bob , eve ".toList).map trimChars).filter
          (fun p => p ≠ [])).map String.mk) :=
  getPlayers_parse_split.1 _ "2".toList "20".toList " bob , eve ".toList
    (by decide) (by decide)

/-- C4: whenever the pattern matches with a player count of 0, `getPlayers`
returns `[]` whatever the capture group contains; the specification's
concrete example also yields `[]` (that text, whose capture group would be
empty, in fact fails the `(.+)\r\n` part of the pattern and returns `[]`
through the no-match branch). -/
theorem getPlayers_zero_count :
    (∀ (out : String) (count maxCap names : List Char),
        findMatch out.toList = some (count, maxCap, names) →
        decNat count = 0 →
        parsePlayers out = []) ∧
    parsePlayers "There are 0 of a max of 20 players online: \r\n" = [] := by
  refine ⟨?_, by decide⟩
  intro out count maxCap names h hc
  have h2 : findMatch out.data = some (count, maxCap, names) := h
  simp [parsePlayers, h2, hc]

/-- Witness for C4: a matching output with count 0 and a non-empty capture. -/
theorem getPlayers_zero_count_witness :
    parsePlayers "There are 0 of a max of 20 players online: x\r\n" = [] :=
  getPlayers_zero_count.1 _ "0".toList "20".toList "x".toList
    (by decide) (by decide)

/-- C5: the request timeout constant is 30 seconds, and `makeRequest`
reports exactly the aborted (timed-out) fetches with the dedicated timeout
error — the rethrown `Error('Request timeout')` of the source, a variant
distinct from every HTTP-status or propagated network error. -/
theorem makeRequest_timeout_distinct :
    requestTimeoutMs = 30 * 1000 ∧
    (∀ o : FetchOutcome,
      makeRequest o = Except.error ReqError.timeout
        ↔ o = FetchOutcome.aborted) := by
  refine ⟨rfl, fun o => ⟨?_, ?_⟩⟩
  · intro h
    cases o with
    | aborted => rfl
    | failed m => simp [makeRequest] at h
    | responded s b =>
        simp only [makeRequest] at h
        split at h
        · cases b <;> simp_all
        · simp at h
  · intro h
    rw [h]
    rfl

/-- Witness for C5: the timed-out fetch produces the timeout error. -/
theorem makeRequest_timeout_distinct_witness :
    makeRequest FetchOutcome.aborted = Except.error ReqError.timeout :=
  (makeRequest_timeout_distinct.2 FetchOutcome.aborted).mpr rfl

/-- C6: `executeServerCommand` (a total function — it never throws) returns
`true` exactly when the request succeeded and the body has a `status` field
equal to the string `"200"`; every other outcome (thrown request, falsy or
malformed body, mismatched status) gives `false`. -/
theorem executeServerCommand_true_iff (o : FetchOutcome) :
    executeServerCommand o = true ↔
      (∃ r : ApiResponse,
        makeRequest o = Except.ok (some r) ∧ r.status = some "200") := by
  cases h : makeRequest o with
  | error e => simp [executeServerCommand, h]
  | ok v =>
      cases v with
      | none => simp [executeServerCommand, h]
      | some r =>
          by_cases hs : r.status = some "200"
          · simp [executeServerCommand, h, hs]
          · simp [executeServerCommand, h, hs]

/-- Witness for C6: a 200-status envelope yields `true`. -/
theorem executeServerCommand_true_iff_witness :
    executeServerCommand
      (FetchOutcome.responded 200 (Except.ok (some ⟨some "200", none⟩)))
      = true :=
  (executeServerCommand_true_iff _).mpr ⟨⟨some "200", none⟩, rfl, rfl⟩

/-- C7: `setWeather` sends the exact command `/weather <weather>` when the
argument is one of `clear`, `rain`, `thunder`, and otherwise returns
`false` having sent nothing. -/
theorem setWeather_enum_guard (weather : String) (env : Env) :
    setWeatherRun weather env =
      if weather = "clear" ∨ weather = "rain" ∨ weather = "thunder" then
        (executeServerCommand (env.respondCommand ("/weather " ++ weather)),
          ["/weather " ++ weather])
      else (false, []) := by
  by_cases h : weather = "clear" ∨ weather = "rain" ∨ weather = "thunder"
  · rw [if_pos h]
    obtain h | h | h := h <;> subst h <;> rfl
  · rw [if_neg h]
    have hc : (["clear", "rain", "thunder"] : List String).contains weather
        = false := by
      push_neg at h
      simp only [List.contains_cons, List.contains_nil,
        Bool.or_eq_false_iff, beq_eq_false_iff_ne]
      tauto
    unfold setWeatherRun
    rw [hc]
    simp

/-- Witness for C7: `setWeather("storm")` is `false` with no remote call. -/
theorem setWeather_enum_guard_witness :
    setWeatherRun "storm"
      ⟨fun _ => FetchOutcome.aborted, fun _ => FetchOutcome.aborted⟩
      = (false, []) := by
  rw [setWeather_enum_guard]
  rw [if_neg (by decide)]

/-- C8: `getOutput` (a total function — it never throws) returns `""` when
the request throws or the body is falsy; on a well-formed body it returns
the `data` field when the envelope status is `"200"` (the empty string when
`data` is absent) and `""` on a mismatched status. -/
theorem getOutput_contract (o : FetchOutcome) :
    (∀ e, makeRequest o = Except.error e → getOutput o = "") ∧
    (makeRequest o = Except.ok none → getOutput o = "") ∧
    (∀ r : ApiResponse, makeRequest o = Except.ok (some r) →
      getOutput o =
        if r.status = some "200" then
          (match r.data with | some d => d | none => "")
        else "") := by
  refine ⟨fun e he => ?_, fun hn => ?_, fun r hr => ?_⟩
  · simp [getOutput, he]
  · simp [getOutput, hn]
  · simp only [getOutput, hr]

/-- Witness for C8: a 200-status envelope with a `data` string returns it. -/
theorem getOutput_contract_witness :
    getOutput
      (FetchOutcome.responded 200
        (Except.ok (some ⟨some "200", some "hello"⟩)))
      = "hello" := by
  have h := (getOutput_contract
      (FetchOutcome.responded 200
        (Except.ok (some ⟨some "200", some "hello"⟩)))).2.2
    ⟨some "200", some "hello"⟩ rfl
  simpa using h

/-- C9: `getPlayers` absorbs every failure (its callees are total and its
own catch turns any thrown error into `[]`), so `getServerStatus` never
reaches its catch: the result's status is always `online`, never `error`. -/
theorem getServerStatus_error_unreachable (env : Env) :
    (∃ ps, getPlayersE env = Except.ok ps) ∧
    (getServerStatus env).status = Status.online := by
  have h : ∃ ps, getPlayersE env = Except.ok ps := by
    cases hb : getPlayersBody env with
    | ok ps => exact ⟨ps, by simp [getPlayersE, hb]⟩
    | error e => exact ⟨[], by simp [getPlayersE, hb]⟩
  obtain ⟨ps, hps⟩ := h
  exact ⟨⟨ps, hps⟩, by simp [getServerStatus, hps]⟩

/-- C10: `output.match(pattern)` returns the match at the leftmost position
at which the pattern matches: if the pattern matches at position `i` and at
no earlier position, the overall match is the one at `i` — later
occurrences cannot influence the result. -/
theorem findMatch_leftmost (l : List Char) (i : Nat) (r : Groups)
    (h : matchAt (l.drop i) = some r)
    (hmin : ∀ j, j < i → matchAt (l.drop j) = none) :
    findMatch l = some r := by
  induction l generalizing i with
  | nil =>
      rw [findMatch]
      rw [List.drop_nil] at h
      exact h
  | cons c cs ih =>
      cases i with
      | zero =>
          rw [List.drop_zero] at h
          rw [findMatch, h]
      | succ n =>
          have h0 : matchAt (c :: cs) = none := by
            have := hmin 0 (Nat.succ_pos n)
            rwa [List.drop_zero] at this
          rw [findMatch, h0]
          exact ih n (by simpa using h)
            (fun j hj => by simpa using hmin (j + 1) (Nat.succ_lt_succ hj))

/-- Witness for C10: a text with two occurrences of the pattern after two
junk characters — the parse picks the first occurrence (`alice`), and the
two positions before it do not match. -/
theorem findMatch_leftmost_witness :
    findMatch
      ("XXThere are 1 of a max of 9 players online: alice\r\nThere are 1 of a max of 9 players online: bob\r\n").toList
      = some ("1".toList, "9".toList, "alice".toList) :=
  findMatch_leftmost _ 2 _ (by decide) (by decide)

end MCSM
